import Mathlib

/-!
Verification development for the ProtDomRetrieverSuite pipeline.

The definitions below are a shallow embedding of the Python sources:
* `protdomretrieversuite/processors/interpro_processor.py`
  (`_choose_best_domains`, the retry loop of `_get_interpro_data`,
   the `domain_ranges.txt` rendering of `_save_results`),
* `protdomretrieversuite/processors/pdb_trimmer.py`
  (`PDBTrimmerConfig.domain_pattern`, `_parse_domain_ranges`, `_trim_pdb_file`),
* `src/processors/fasta_processor.py` (`_extract_domain_sequences`),
* `protdomretrieversuite/processors/alphafold_processor.py` (`process`),
* `src/workflow_manager.py` (`WorkflowManager.run`).

Python machine-level conventions modelled explicitly: unbounded `int` is `Int`
(`Nat` where the value is produced by a `\d+` regex group), `str.strip`,
`str.split`, string slicing with clamping, `int(...)` literal parsing, and
`dict` insertion-order semantics (association lists with first-position
overwrite).  Stateful loops become folds; fallible code returns `Except`.
-/

namespace ProtDom

/-! ## Python runtime primitives -/

/-- Exception taxonomy of `protdomretrieversuite/utils/errors.py`.  All four
custom classes are subclasses of `ProcessingError`; `os` stands for a plain
non-`ProcessingError` exception such as `FileNotFoundError`. -/
inductive PyErr where
  | validation (msg : String)
  | api (msg : String)
  | file (msg : String)
  | processing (msg : String)
  | os (msg : String)
deriving Repr, DecidableEq

/-- Whether a raised exception is caught by `except ProcessingError`
(every custom error class is a `ProcessingError` subclass). -/
def PyErr.isProcessingFamily : PyErr → Bool
  | .os _ => false
  | _ => true

/-- The `str(e)` message of an exception. -/
def PyErr.msg : PyErr → String
  | .validation m => m
  | .api m => m
  | .file m => m
  | .processing m => m
  | .os m => m

/-- Python `s.startswith(p)` (character-list comparison, so that it is
kernel-reducible). -/
def strStartsWith (s p : String) : Bool :=
  s.toList.take p.toList.length == p.toList

/-- Python `s.split(c)` for a one-character separator: split at every
occurrence, keeping empty pieces. -/
def splitCharAux (c : Char) : List Char → List Char → List String
  | [], acc => [acc.reverse.asString]
  | x :: rest, acc =>
    if x == c then acc.reverse.asString :: splitCharAux c rest []
    else splitCharAux c rest (x :: acc)

/-- Python `s.split(c)` for a one-character separator. -/
def pySplit (s : String) (c : Char) : List String :=
  splitCharAux c s.toList []

/-- Characters stripped by Python `str.strip()` (ASCII whitespace). -/
def isPyWsChar (c : Char) : Bool :=
  c = ' ' || c = '\t' || c = '\n' || c = '\r' || c = '\x0b' || c = '\x0c'

/-- Python `s.strip()` restricted to ASCII whitespace. -/
def pyStrip (s : String) : String :=
  (((s.toList.dropWhile isPyWsChar).reverse.dropWhile isPyWsChar).reverse).asString

/-- Decimal value of a digit list, most significant digit first. -/
def parseVal (cs : List Char) : Nat :=
  cs.foldl (fun a c => 10 * a + (c.toNat - 48)) 0

/-- Least-significant-first decimal digits of `n`; `fuel` bounds recursion
so the definition is structural and kernel-reducible. -/
def toDecimalRev : Nat → Nat → List Char
  | 0, _ => []
  | fuel + 1, n =>
    if n < 10 then [Nat.digitChar n]
    else Nat.digitChar (n % 10) :: toDecimalRev fuel (n / 10)

/-- Python `str(n)` for a non-negative `int`: decimal digits, no sign. -/
def pyStr (n : Nat) : String :=
  ((toDecimalRev (n + 1) n).reverse).asString

/-- Python `str(i)` for an arbitrary `int`. -/
def intStr (i : Int) : String :=
  if i < 0 then "-" ++ pyStr i.natAbs else pyStr i.toNat

/-- Tail of a Python integer literal after its first digit:
digits optionally separated by single underscores. -/
def validDigitsTail : List Char → Bool
  | [] => true
  | '_' :: c :: rest => c.isDigit && validDigitsTail rest
  | ['_'] => false
  | c :: rest => c.isDigit && validDigitsTail rest

/-- Body of a Python integer literal (after optional sign): nonempty,
starts with a digit, underscores only between digits. -/
def validIntBody : List Char → Bool
  | [] => false
  | c :: rest => c.isDigit && validDigitsTail rest

/-- Python `int(s)` for ASCII input: strip whitespace, optional sign,
digits with optional single underscores between them. -/
def pythonInt (s : String) : Option Int :=
  let cs := (pyStrip s).toList
  let body := fun (l : List Char) (sign : Bool) =>
    if validIntBody l then
      let v : Int := Int.ofNat (parseVal (l.filter (fun c => !(c == '_'))))
      some (if sign then -v else v)
    else none
  match cs with
  | '+' :: rest => body rest false
  | '-' :: rest => body rest true
  | _ => body cs false

/-- Python `s[a:b]` character slicing of a string: negative indices count
from the end, out-of-range bounds are clamped, empty result if `b ≤ a`. -/
def pySlice (s : String) (a b : Int) : String :=
  let n : Int := s.length
  let norm : Int → Nat := fun i => (if i < 0 then max (n + i) 0 else min i n).toNat
  (((s.toList.drop (norm a)).take (norm b - norm a))).asString

/-- Python `s[a:b]` for character lists (used for fixed-column parses where
both bounds are non-negative). -/
def sliceChars (s : String) (a b : Nat) : String :=
  ((s.toList.drop a).take (b - a)).asString

/-- Python `dict` assignment `m[k] = v` on an association list: overwrite in
place if the key exists (insertion position kept), else append. -/
def dictInsert {V : Type} (m : List (String × V)) (k : String) (v : V) :
    List (String × V) :=
  if m.any (fun p => p.1 == k) then
    m.map (fun p => if p.1 == k then (p.1, v) else p)
  else m ++ [(k, v)]

/-- Python `dict` lookup `m.get(k)` / `m[k]` on an association list. -/
def dictGet {V : Type} (m : List (String × V)) (k : String) : Option V :=
  (m.find? (fun p => p.1 == k)).map (fun p => p.2)

/-! ## IntervalSelector: `InterProProcessor._choose_best_domains` -/

/-- One annotation interval `(start, end)`, Python unbounded ints. -/
abbrev Interval := Int × Int

/-- Overlap test of `_choose_best_domains.domains_overlap`:
`not (d1[1] < d2[0] or d1[0] > d2[1])` (closed ranges, touching counts). -/
def domains_overlap (d1 d2 : Interval) : Bool :=
  !(decide (d1.2 < d2.1) || decide (d1.1 > d2.2))

/-- Flattening of `domains_by_entry` in Python iteration order, each interval
tagged with its source entry (the loop filling `all_domains`). -/
def flattenDomains (dbe : List (String × List Interval)) : List (String × Interval) :=
  dbe.flatMap (fun p => p.2.map (fun d => (p.1, d)))

/-- The `entries_by_domain` dict: keyed by the interval tuple, so the last
write in flattening order wins. -/
def entriesByDomain (dbe : List (String × List Interval)) (d : Interval) :
    Option String :=
  ((flattenDomains dbe).reverse.find? (fun p => p.2 == d)).map (fun p => p.1)

/-- The flat `all_domains` candidate list. -/
def allDomains (dbe : List (String × List Interval)) : List Interval :=
  (flattenDomains dbe).map (fun p => p.2)

/-- `all_domains.sort(key=lambda x: x[1] - x[0], reverse=True)`: stable sort,
length descending.  Python `list.sort` is stable, as is `insertionSort`
with a reflexive total preorder, so the two agree extensionally. -/
def sortByLengthDesc (l : List Interval) : List Interval :=
  l.insertionSort (fun a b => b.2 - b.1 ≤ a.2 - a.1)

/-- One candidate of the greedy selection loop: accept `d` only if it
overlaps none of the already-accepted intervals. -/
def selectStep (sel : List Interval) (d : Interval) : List Interval :=
  if sel.any (fun s => domains_overlap d s) then sel else sel ++ [d]

/-- The greedy selection loop (`selected_domains` in acceptance order). -/
def selectDomains (l : List Interval) : List Interval :=
  l.foldl selectStep []

/-- `ordered_domains.sort(key=lambda x: x[0][0])`: stable re-sort of the
accepted intervals by start position (the `final_domains` order). -/
def sortByStart (l : List Interval) : List Interval :=
  l.insertionSort (fun a b => a.1 ≤ b.1)

/-- The `'domains'` list of the dict returned by `_choose_best_domains`:
for each final domain, its `entries_by_domain` attribution and coordinates,
listed in start order.  The ordinal (`d1`, `d2`, ...) is the 1-based list
position (`new_idx` of the `enumerate(ordered_domains, 1)` loop). -/
def choose_best_domains (dbe : List (String × List Interval)) :
    List (String × Interval) :=
  (sortByStart (selectDomains (sortByLengthDesc (allDomains dbe)))).map
    (fun d => ((entriesByDomain dbe d).getD "", d))

/-- The per-accession layout with explicit ordinals `1..N`. -/
def domainLayout (dbe : List (String × List Interval)) :
    List (Nat × String × Interval) :=
  List.enumFrom 1 (choose_best_domains dbe)

/-! ## RetryingClient: the retry loop shared by
`InterProProcessor._get_interpro_data` and
`AlphaFoldProcessor._get_structure_info`.

`op attempt` is the remote round trip of attempt number `attempt`
(0-indexed); `Except.error ()` stands for `requests.RequestException`. -/

/-- Terminal outcome of the retry loop.  `noneReturned` models Python's
implicit `return None` when `range(max_retries)` is empty. -/
inductive RetryResult (α : Type) where
  | ok (a : α)
  | apiError
  | noneReturned
deriving Repr, DecidableEq

/-- One iteration of `for attempt in range(max_retries)`.  The state holds the
finished outcome (if the loop returned or raised) and the sleeps performed so
far; `time.sleep(2 ** attempt)` runs only when more attempts remain. -/
def retryStep {α : Type} (maxRetries : Nat) (op : Nat → Except Unit α)
    (st : Option (RetryResult α) × List Nat) (attempt : Nat) :
    Option (RetryResult α) × List Nat :=
  match st.1 with
  | some _ => st
  | none =>
    match op attempt with
    | .ok v => (some (.ok v), st.2)
    | .error _ =>
      if attempt = maxRetries - 1 then (some .apiError, st.2)
      else (none, st.2 ++ [2 ^ attempt])

/-- The whole retry loop: result plus the list of sleep durations, in order. -/
def retryCall {α : Type} (maxRetries : Nat) (op : Nat → Except Unit α) :
    RetryResult α × List Nat :=
  let res := (List.range maxRetries).foldl (retryStep maxRetries op) (none, [])
  (res.1.getD .noneReturned, res.2)

/-! ## PDBTrimmer: domain pattern, range parsing, trimming -/

/-- A `\w` character, ASCII range (Python `re` additionally accepts other
Unicode word characters; the inputs of this pipeline are ASCII). -/
def isWordChar (c : Char) : Bool :=
  c.isAlphanum || c = '_'

/-- Bracket part of `PDBTrimmerConfig.domain_pattern` after the `\w+` prefix:
`\[(\d+)-(\d+)\]`.  A greedy `\d+` followed by a non-digit literal needs no
backtracking, so each group is the maximal digit run.  Trailing characters
after `]` are ignored (`re.match` anchors only the start). -/
def parseBracket (cs : List Char) : Option (List Char × List Char) :=
  if cs.head? = some '[' then
    let rest := cs.tail
    let d1 := rest.takeWhile Char.isDigit
    if d1.isEmpty then none
    else
      let rest1 := rest.drop d1.length
      if rest1.head? = some '-' then
        let rest2 := rest1.tail
        let d2 := rest2.takeWhile Char.isDigit
        if d2.isEmpty then none
        else
          if (rest2.drop d2.length).head? = some ']' then some (d1, d2)
          else none
      else none
  else none

/-- Greedy `\w+` with backtracking: try the prefix of length `k`, then
`k - 1`, ..., down to 1, taking the first split that lets the bracket part
match (the regex engine's longest-first search). -/
def tryWordPrefix (cs : List Char) : Nat → Option (List Char × List Char × List Char)
  | 0 => none
  | k + 1 =>
    match parseBracket (cs.drop (k + 1)) with
    | some (d1, d2) => some (cs.take (k + 1), d1, d2)
    | none => tryWordPrefix cs k

/-- `re.match` of `domain_pattern = (\w+)\[(\d+)-(\d+)\]`, with the two digit
groups converted by `int(...)` (which on pure digit strings is `parseVal`). -/
def domain_pattern_match (s : String) : Option (String × Nat × Nat) :=
  let cs := s.toList
  (tryWordPrefix cs (cs.takeWhile isWordChar).length).map
    (fun g => (g.1.asString, parseVal g.2.1, parseVal g.2.2))

/-- The `domain_ranges.txt` line written by
`InterProProcessor._save_results`: `f"{accession}[{start}-{end}]"`. -/
def renderDomainKey (accession : String) (start stop : Nat) : String :=
  accession ++ "[" ++ pyStr start ++ "-" ++ pyStr stop ++ "]"

/-- Append `m[k].append(v)` semantics of `_parse_domain_ranges`: extend the
existing list for `k`, else start a new one. -/
def dictAppendRange (r : List (String × List (Nat × Nat))) (k : String)
    (v : Nat × Nat) : List (String × List (Nat × Nat)) :=
  if r.any (fun p => p.1 == k) then
    r.map (fun p => if p.1 == k then (p.1, p.2 ++ [v]) else p)
  else r ++ [(k, [v])]

/-- `PDBTrimmer._parse_domain_ranges` over the file's lines: match each
stripped line against `domain_pattern`, collect `(start, end)` per accession
(in file order, duplicates kept); an empty result raises `ValidationError`,
re-wrapped by the `except` clause into `FileError`. -/
def parse_domain_ranges (lines : List String) :
    Except PyErr (List (String × List (Nat × Nat))) :=
  let ranges := lines.foldl
    (fun r line =>
      match domain_pattern_match (pyStrip line) with
      | some (acc, s, e) => dictAppendRange r acc (s, e)
      | none => r)
    []
  if ranges.isEmpty then
    .error (.file "Failed to parse domain ranges: No valid domain ranges found in file")
  else .ok ranges

/-- Residue number of a PDB line: `int(line[22:26])`. -/
def pdbLineResidue (line : String) : Option Int :=
  pythonInt (sliceChars line 22 26)

/-- One line of the `_trim_pdb_file` loop.  State: lines written to the
output file, `atoms_found`, `total_atoms`, `trimmed_atoms`. -/
def trimFold (start stop : Int) (st : List String × Bool × Nat × Nat)
    (line : String) : List String × Bool × Nat × Nat :=
  let (out, found, tot, trm) := st
  if strStartsWith line "ATOM" then
    match pdbLineResidue line with
    | some r =>
      if start ≤ r ∧ r ≤ stop then (out ++ [line], true, tot + 1, trm + 1)
      else (out, found, tot + 1, trm)
    | none => (out, found, tot + 1, trm)
  else if strStartsWith line "TER" || strStartsWith line "END" then
    (out ++ [line], found, tot, trm)
  else st

/-- The `_trim_pdb_file` line loop over the whole input file. -/
def trim_pdb_file (lines : List String) (start stop : Int) :
    List String × Bool × Nat × Nat :=
  lines.foldl (trimFold start stop) ([], false, 0, 0)

/-- The retention condition of the claim on `_trim_pdb_file`: an atom-record
line is kept iff its fixed-column residue number parses and lies in
`[start, end]`; `TER`/`END` lines are always kept; everything else dropped. -/
def keepLine (start stop : Int) (line : String) : Bool :=
  if strStartsWith line "ATOM" then
    match pdbLineResidue line with
    | some r => decide (start ≤ r) && decide (r ≤ stop)
    | none => false
  else strStartsWith line "TER" || strStartsWith line "END"

/-- A synthetic PDB atom-record line whose residue columns (22:26) hold `n`. -/
def mkAtomLine (n : Nat) : String :=
  ("ATOM".toList ++ List.replicate 18 ' ' ++ (pyStr n).toList).asString

/-- `_trim_pdb_file` including its failure path: if no atom fell in the
range, the `ValidationError` raised inside the `try` is re-wrapped by the
`except` clause into a `FileError`. -/
def trim_pdb_result (lines : List String) (start stop : Int) :
    Except PyErr (List String) :=
  let (out, found, _, _) := trim_pdb_file lines start stop
  if found then .ok out
  else .error (.file "Failed to trim PDB file")

/-! ## FastaProcessor: `_extract_domain_sequences` -/

/-- One value of the `domain_sequences` dict: the sliced sequence plus the
`entry`/`accession`/`start`/`end` fields. -/
structure DomainSeqRec where
  sequence : String
  entry : String
  accession : String
  start : Int
  stop : Int
deriving Repr, DecidableEq

/-- FASTA parsing loop of `_extract_domain_sequences` (lines split on `\n`):
a `>` header pushes the pending record and takes `line.split('|')[1]` as the
next accession (an out-of-range index is an `IndexError`, re-wrapped by the
outer `except` into `ValidationError`); other lines accumulate stripped
sequence text. -/
def parseFastaContent (content : String) :
    Except PyErr (List (String × String)) := do
  let step := fun (st : Option String × String × List (String × String))
      (line : String) => do
    let (curAcc, curSeq, seqs) := st
    if strStartsWith line ">" then
      let seqs := match curAcc with
        | some a => dictInsert seqs a curSeq
        | none => seqs
      match (pySplit line '|').get? 1 with
      | some acc => Except.ok (some acc, "", seqs)
      | none =>
        Except.error
          (PyErr.validation "Failed to extract domain sequences: list index out of range")
    else Except.ok (curAcc, curSeq ++ pyStrip line, seqs)
  let (curAcc, curSeq, seqs) ← (pySplit content '\n').foldlM step (none, "", [])
  match curAcc with
  | some a => Except.ok (dictInsert seqs a curSeq)
  | none => Except.ok seqs

/-- `FastaProcessor._extract_domain_sequences`: parse the FASTA text, then for
every accession with a retrieved sequence and every domain `(entry, start,
end)` of its layout, bind `sequence[start-1:end]` to the DomainKey
`f"{accession}[{start}-{end}]"`.  An accession without a sequence is only
logged.  Zero extracted sequences raises `ValidationError` (message as
re-wrapped by the outer `except` clause). -/
def extract_domain_sequences (content : String)
    (domainResults : List (String × List (String × Int × Int))) :
    Except PyErr (List (String × DomainSeqRec)) := do
  let seqs ← parseFastaContent content
  let out := domainResults.foldl
    (fun acc p =>
      match dictGet seqs p.1 with
      | some fullSeq =>
        p.2.foldl
          (fun acc dom =>
            let key := p.1 ++ "[" ++ intStr dom.2.1 ++ "-" ++ intStr dom.2.2 ++ "]"
            dictInsert acc key
              ⟨pySlice fullSeq (dom.2.1 - 1) dom.2.2, dom.1, p.1, dom.2.1, dom.2.2⟩)
          acc
      | none => acc)
    []
  if out.isEmpty then
    Except.error
      (PyErr.validation
        "Failed to extract domain sequences: No valid domain sequences extracted")
  else Except.ok out

/-! ## AlphaFoldProcessor: `process` -/

/-- The `for future in as_completed(...)` aggregation loop of
`AlphaFoldProcessor.process`: a `Some path` worker result is stored under its
accession, a `None` result (per-accession failure) is skipped. -/
def afCollect (res : List (String × String)) (p : String × Option String) :
    List (String × String) :=
  match p.2 with
  | some path => dictInsert res p.1 path
  | none => res

/-- `AlphaFoldProcessor.process` over the per-accession outcomes of
`_process_single_structure` (which catches every exception and returns
`None` on failure, so a worker never propagates).  The results dict is filled
in completion order; an empty accession list raises `ValidationError` before
the `try`, zero successes raises `ValidationError` inside it, re-wrapped by
the `except` clause into `ProcessingError`. -/
def alphafold_process (outcomes : List (String × Option String)) :
    Except PyErr (List (String × String)) :=
  if outcomes.isEmpty then .error (.validation "No accessions provided")
  else
    let results := outcomes.foldl afCollect []
    if results.isEmpty then
      .error
        (.processing "AlphaFold processing failed: No structures were downloaded successfully")
    else .ok results

/-! ## WorkflowManager.run -/

/-- Per-accession annotation result map (`self.results['domains']`). -/
abbrev DomainsMap := List (String × List (String × Interval))

/-- The environment of one `WorkflowManager.run` call: the input file's
contents (`none` = file missing, so `open` raises `FileNotFoundError`),
the caller flags, and the outcome each stage call would produce. -/
structure RunEnv where
  inputFileContents : Option (List String)
  interproEntries : List String
  interproOutcome : Except PyErr DomainsMap
  fastaOutcome : Except PyErr (List (String × DomainSeqRec))
  afOutcome : Except PyErr (List (String × String))
  trimOutcome : Except PyErr (List (String × String))
  retrieveFasta : Bool
  downloadAlphafold : Bool
  trimPdb : Bool
  stopRequested : Bool
  alphafoldStructDirExists : Bool

/-- The `self.results` accumulator. -/
structure RunResults where
  domains : Option DomainsMap
  fasta : Option (List (String × DomainSeqRec))
  alphafold : Option (List (String × String))
  trimmed : Option (List (String × String))
deriving Repr, DecidableEq

/-- Body of `WorkflowManager.run` inside its outer `try`, in source order:
open the input file (before any validation!), run the `exists()` and
entry-list validations, then the four stages with their flag checks,
stop-request checks, and the AlphaFold `except ProcessingError` /
trim-skip logic. -/
def workflow_run_body (env : RunEnv) : Except PyErr RunResults := do
  let _ ← match env.inputFileContents with
    | some lines => Except.ok (lines.map pyStrip |>.filter (fun l => !(l == "")))
    | none =>
      Except.error (PyErr.os "No such file or directory")
  let _ ← if env.inputFileContents.isNone then
      Except.error (PyErr.validation "Input file does not exist")
    else Except.ok ()
  let _ ← if env.interproEntries.isEmpty then
      Except.error (PyErr.validation "No InterPro entries provided")
    else Except.ok ()
  let domains ← env.interproOutcome
  let results : RunResults :=
    { domains := some domains, fasta := none, alphafold := none, trimmed := none }
  let _ ← if env.stopRequested then
      Except.error (PyErr.processing "Processing stopped by user")
    else Except.ok ()
  let results ← if env.retrieveFasta then do
      let f ← env.fastaOutcome
      Except.ok { results with fasta := some f }
    else Except.ok results
  let _ ← if env.stopRequested then
      Except.error (PyErr.processing "Processing stopped by user")
    else Except.ok ()
  let afStep : Except PyErr (RunResults × Bool) :=
    if env.downloadAlphafold then
      match env.afOutcome with
      | .ok m => Except.ok ({ results with alphafold := some m }, false)
      | .error e =>
        if e.isProcessingFamily then
          -- caught by `except ProcessingError`: results['alphafold'] unset,
          -- so with trim_pdb requested the run returns early
          if env.trimPdb then Except.ok (results, true)
          else Except.ok (results, false)
        else Except.error e
    else Except.ok (results, false)
  let (results, earlyReturn) ← afStep
  if earlyReturn then Except.ok results
  else do
    let _ ← if env.stopRequested then
        Except.error (PyErr.processing "Processing stopped by user")
      else Except.ok ()
    let results ← if env.trimPdb then do
        let _ ← if !env.alphafoldStructDirExists then
            Except.error
              (PyErr.processing
                "PDB trimming failed: No PDB structures available in alphafold_structures directory")
          else Except.ok ()
        match env.trimOutcome with
        | .ok t => Except.ok { results with trimmed := some t }
        | .error e => Except.error (PyErr.processing ("PDB trimming failed: " ++ e.msg))
      else Except.ok results
    Except.ok results

/-- `WorkflowManager.run` with its outer exception handlers:
`except ValidationError: raise` and `except ProcessingError: raise` pass the
error through; `except Exception` wraps anything else (such as the
`FileNotFoundError` from `open`) into
`ProcessingError(f"Workflow execution failed: ...")`. -/
def workflow_run (env : RunEnv) : Except PyErr RunResults :=
  match workflow_run_body env with
  | .ok r => .ok r
  | .error e =>
    if e.isProcessingFamily then .error e
    else .error (.processing ("Workflow execution failed: " ++ e.msg))

/-! ## Lemmas about the interval selector -/

theorem domains_overlap_symm (a b : Interval) :
    domains_overlap a b = domains_overlap b a := by
  simp only [domains_overlap, gt_iff_lt]
  rw [Bool.or_comm]

theorem pairwise_foldl_selectStep (l : List Interval) :
    ∀ acc : List Interval,
      acc.Pairwise (fun a b => domains_overlap a b = false) →
      (l.foldl selectStep acc).Pairwise (fun a b => domains_overlap a b = false) := by
  induction l with
  | nil => exact fun acc h => h
  | cons d l ih =>
    intro acc h
    rw [List.foldl_cons]
    apply ih
    unfold selectStep
    by_cases hany : acc.any (fun s => domains_overlap d s) = true
    · rw [if_pos hany]; exact h
    · rw [if_neg hany]
      rw [List.pairwise_append]
      refine ⟨h, List.pairwise_singleton _ _, ?_⟩
      intro a ha b hb
      rw [List.mem_singleton] at hb
      subst hb
      have := List.any_eq_false.mp (Bool.eq_false_iff.mpr hany) a ha
      rw [domains_overlap_symm]
      exact Bool.eq_false_iff.mpr this

theorem pairwise_selectDomains (l : List Interval) :
    (selectDomains l).Pairwise (fun a b => domains_overlap a b = false) :=
  pairwise_foldl_selectStep l [] (List.Pairwise.nil)

theorem pairwise_sortByStart_nonoverlap (l : List Interval)
    (h : l.Pairwise (fun a b => domains_overlap a b = false)) :
    (sortByStart l).Pairwise (fun a b => domains_overlap a b = false) := by
  have hperm := List.perm_insertionSort (fun a b : Interval => a.1 ≤ b.1) l
  exact (hperm.pairwise_iff
    (fun {x y} hxy => by rw [domains_overlap_symm]; exact hxy)).mpr h

theorem sorted_sortByStart (l : List Interval) :
    (sortByStart l).Pairwise (fun a b => a.1 ≤ b.1) := by
  haveI : IsTotal Interval (fun a b => a.1 ≤ b.1) := ⟨fun a b => le_total a.1 b.1⟩
  haveI : IsTrans Interval (fun a b => a.1 ≤ b.1) :=
    ⟨fun _ _ _ h1 h2 => le_trans h1 h2⟩
  exact List.sorted_insertionSort _ l

theorem fst_lt_pairwise_enumFrom {α : Type} (l : List α) :
    ∀ n : Nat, (List.enumFrom n l).Pairwise (fun x y => x.1 < y.1) := by
  induction l with
  | nil => intro n; exact List.Pairwise.nil
  | cons a l ih =>
    intro n
    rw [List.enumFrom_cons]
    refine List.Pairwise.cons ?_ (ih (n + 1))
    intro y hy
    rcases y with ⟨i, x⟩
    have := (List.mem_enumFrom hy).1
    omega

/-- C1: for every input mapping of annotation entries to intervals, the
layout produced by `_choose_best_domains` has pairwise non-overlapping
intervals (closed-range overlap test), is listed sorted by `start`
ascending, and its ordinals are exactly `1..N`, strictly increasing in that
order. -/
theorem c1_interval_selector_layout_invariants (dbe : List (String × List Interval)) :
    (domainLayout dbe).Pairwise
      (fun x y => x.1 < y.1 ∧ x.2.2.1 ≤ y.2.2.1 ∧
        domains_overlap x.2.2 y.2.2 = false)
    ∧ (domainLayout dbe).map Prod.fst = List.range' 1 (choose_best_domains dbe).length := by
  constructor
  · have hsel := pairwise_selectDomains (sortByLengthDesc (allDomains dbe))
    have hnov := pairwise_sortByStart_nonoverlap _ hsel
    have hsort := sorted_sortByStart (selectDomains (sortByLengthDesc (allDomains dbe)))
    have hboth := hsort.and hnov
    have hcbd :
        (choose_best_domains dbe).Pairwise
          (fun a b => a.2.1 ≤ b.2.1 ∧ domains_overlap a.2 b.2 = false) := by
      unfold choose_best_domains
      rw [List.pairwise_map]
      exact hboth
    have hsnd :
        (domainLayout dbe).Pairwise
          (fun x y => x.2.2.1 ≤ y.2.2.1 ∧ domains_overlap x.2.2 y.2.2 = false) := by
      have h1 :
          (List.map Prod.snd (domainLayout dbe)).Pairwise
            (fun a b => a.2.1 ≤ b.2.1 ∧ domains_overlap a.2 b.2 = false) := by
        unfold domainLayout
        rw [List.enumFrom_map_snd]
        exact hcbd
      rw [List.pairwise_map] at h1
      exact h1
    have hfst := fst_lt_pairwise_enumFrom (choose_best_domains dbe) 1
    exact (hfst.and hsnd).imp (fun h => ⟨h.1, h.2.1, h.2.2⟩)
  · unfold domainLayout
    exact List.enumFrom_map_fst 1 (choose_best_domains dbe)

/-- C4 (amended): with a candidate list flattening to exactly two
overlapping, equal-length intervals from two entries, the stable length sort
keeps the earlier-flattened one first, and — provided the two intervals have
distinct coordinates — the earlier-flattened one is the one selected into
the layout, attributed to its own entry. -/
theorem c4_equal_length_tiebreak (e1 e2 : String) (d1 d2 : Interval)
    (hent : e1 ≠ e2) (hne : d1 ≠ d2)
    (hlen : d1.2 - d1.1 = d2.2 - d2.1)
    (hov : domains_overlap d1 d2 = true) :
    sortByLengthDesc (allDomains [(e1, [d1]), (e2, [d2])]) = [d1, d2]
    ∧ choose_best_domains [(e1, [d1]), (e2, [d2])] = [(e1, d1)] := by
  have hall : allDomains [(e1, [d1]), (e2, [d2])] = [d1, d2] := rfl
  have hsort : sortByLengthDesc [d1, d2] = [d1, d2] := by
    unfold sortByLengthDesc
    simp [List.insertionSort, List.orderedInsert, hlen.ge]
  have hov' : domains_overlap d2 d1 = true := by
    rw [domains_overlap_symm]; exact hov
  have hselect : selectDomains [d1, d2] = [d1] := by
    unfold selectDomains selectStep
    simp [hov']
  have hstart : sortByStart [d1] = [d1] := rfl
  have hentry : entriesByDomain [(e1, [d1]), (e2, [d2])] d1 = some e1 := by
    unfold entriesByDomain flattenDomains
    simp [List.find?, beq_eq_false_iff_ne.mpr (Ne.symm hne)]
  constructor
  · rw [hall, hsort]
  · unfold choose_best_domains
    rw [hall, hsort, hselect, hstart]
    simp [hentry]

/-- C4 witness: the concrete regression input of the spec-style scenario —
entries `E1 ↦ (4,10)` and `E2 ↦ (8,14)`, overlapping and of equal length —
selects `E1`'s interval. -/
theorem c4_equal_length_tiebreak_witness :
    sortByLengthDesc (allDomains [("E1", [((4:Int), (10:Int))]), ("E2", [(8, 14)])])
        = [(4, 10), (8, 14)]
    ∧ choose_best_domains [("E1", [((4:Int), (10:Int))]), ("E2", [(8, 14)])]
        = [("E1", (4, 10))] :=
  c4_equal_length_tiebreak "E1" "E2" (4, 10) (8, 14)
    (by decide) (by decide) (by decide) (by decide)

/-- C4 counterexample, two failure modes of the claim as stated.
First: two identical intervals from different entries overlap and have
equal length, the earlier-flattened one belongs to `E1`, yet the layout's
single domain is attributed to `E2` (the later entry), because
`entries_by_domain` is keyed by the interval tuple and the later write wins.
Second: with a longer third interval `(-2, 5)` overlapping only `E1`'s
`(4, 10)`, the later-flattened equal-length interval `(8, 14)` of `E2` is
the one selected, not `E1`'s earlier-flattened one. -/
theorem c4_counterexample :
    (choose_best_domains [("E1", [((1:Int), (10:Int))]), ("E2", [(1, 10)])]
        = [("E2", (1, 10))]
     ∧ ("E1", ((1:Int), (10:Int)))
        ∉ choose_best_domains [("E1", [(1, 10)]), ("E2", [(1, 10)])])
    ∧ choose_best_domains
        [("E1", [((4:Int), (10:Int))]), ("E2", [(8, 14)]), ("E3", [(-2, 5)])]
        = [("E3", (-2, 5)), ("E2", (8, 14))] := by
  exact ⟨⟨rfl, by decide⟩, rfl⟩

/-! ## Lemmas about the trimmer -/

theorem trim_foldl_out (start stop : Int) (lines : List String) :
    ∀ st : List String × Bool × Nat × Nat,
      (lines.foldl (trimFold start stop) st).1
        = st.1 ++ lines.filter (keepLine start stop) := by
  induction lines with
  | nil => intro st; simp
  | cons line l ih =>
    intro st
    rw [List.foldl_cons, ih, List.filter_cons]
    rcases st with ⟨out, found, tot, trm⟩
    by_cases hA : strStartsWith line "ATOM" = true
    · cases hres : pdbLineResidue line with
      | some r =>
        by_cases hin : start ≤ r ∧ r ≤ stop
        · simp [trimFold, keepLine, hA, hres, hin]
        · simp [trimFold, keepLine, hA, hres, hin]
      | none => simp [trimFold, keepLine, hA, hres]
    · by_cases hT : (strStartsWith line "TER" || strStartsWith line "END") = true
      · simp [trimFold, keepLine, hA, hT]
      · simp [trimFold, keepLine, hA, hT]

set_option maxRecDepth 100000

/-- C2: the trimmer keeps a line starting with an atom record if and only if
the residue number parsed from columns 22:26 satisfies
`start ≤ residue ≤ end` (both bounds inclusive), passes `TER`/`END` lines
through unchanged, and drops every other record type — the output is exactly
the `keepLine` filter of the input; and on a synthetic structure with atom
records at residues 1..100 plus terminator/end lines, trimming to `[20, 30]`
retains exactly the 11 atom records 20..30 and the `TER`/`END` lines
verbatim. -/
theorem c2_trim_keeps_exactly_range (lines : List String) (start stop : Int) :
    (trim_pdb_file lines start stop).1 = lines.filter (keepLine start stop)
    ∧ (trim_pdb_file ((List.range 100).map (fun i => mkAtomLine (i + 1)) ++ ["TER", "END"]) 20 30).1
        = (List.range' 20 11).map mkAtomLine ++ ["TER", "END"]
    ∧ ((trim_pdb_file ((List.range 100).map (fun i => mkAtomLine (i + 1)) ++ ["TER", "END"]) 20 30).1.countP
        (fun l => strStartsWith l "ATOM")) = 11 := by
  refine ⟨?_, by decide, by decide⟩
  unfold trim_pdb_file
  exact trim_foldl_out start stop lines ([], false, 0, 0)

/-! ## Lemmas about decimal rendering and the domain pattern -/

theorem digitChar_toNat_sub (d : Nat) (h : d < 10) :
    (Nat.digitChar d).toNat - 48 = d := by
  interval_cases d <;> rfl

theorem digitChar_isDigit (d : Nat) (h : d < 10) :
    (Nat.digitChar d).isDigit = true := by
  interval_cases d <;> decide

theorem parseVal_append_digit (xs : List Char) (c : Char) :
    parseVal (xs ++ [c]) = 10 * parseVal xs + (c.toNat - 48) := by
  simp [parseVal, List.foldl_append]

theorem toDecimalRev_spec (fuel : Nat) :
    ∀ n, n < fuel →
      parseVal (toDecimalRev fuel n).reverse = n
      ∧ toDecimalRev fuel n ≠ []
      ∧ ∀ c ∈ toDecimalRev fuel n, c.isDigit = true := by
  induction fuel with
  | zero => intro n hn; omega
  | succ fuel ih =>
    intro n hn
    by_cases h10 : n < 10
    · refine ⟨?_, by simp [toDecimalRev, h10], ?_⟩
      · simp [toDecimalRev, h10, parseVal, digitChar_toNat_sub n h10]
      · intro c hc
        simp [toDecimalRev, h10] at hc
        subst hc
        exact digitChar_isDigit n h10
    · have hdiv : n / 10 < n := Nat.div_lt_self (by omega) (by omega)
      have hrec := ih (n / 10) (by omega)
      refine ⟨?_, by simp [toDecimalRev, h10], ?_⟩
      · rw [show toDecimalRev (fuel + 1) n
              = Nat.digitChar (n % 10) :: toDecimalRev fuel (n / 10) by
            simp [toDecimalRev, h10]]
        rw [List.reverse_cons, parseVal_append_digit, hrec.1,
          digitChar_toNat_sub (n % 10) (Nat.mod_lt n (by omega))]
        omega
      · intro c hc
        rw [show toDecimalRev (fuel + 1) n
              = Nat.digitChar (n % 10) :: toDecimalRev fuel (n / 10) by
            simp [toDecimalRev, h10]] at hc
        rcases List.mem_cons.mp hc with hc | hc
        · subst hc
          exact digitChar_isDigit (n % 10) (Nat.mod_lt n (by omega))
        · exact hrec.2.2 c hc

theorem parseVal_pyStr (n : Nat) : parseVal (pyStr n).toList = n :=
  (toDecimalRev_spec (n + 1) n (by omega)).1

theorem pyStr_toList_ne_nil (n : Nat) : (pyStr n).toList ≠ [] := by
  have h := (toDecimalRev_spec (n + 1) n (by omega)).2.1
  intro hcon
  have hcon' : (toDecimalRev (n + 1) n).reverse = [] := hcon
  exact h (List.reverse_eq_nil_iff.mp hcon')

theorem pyStr_all_digits (n : Nat) :
    ∀ c ∈ (pyStr n).toList, c.isDigit = true := by
  intro c hc
  have hc' : c ∈ (toDecimalRev (n + 1) n).reverse := hc
  exact (toDecimalRev_spec (n + 1) n (by omega)).2.2 c (List.mem_reverse.mp hc')

theorem dropWhile_all_false {p : Char → Bool} (l : List Char)
    (h : ∀ c ∈ l, p c = false) : l.dropWhile p = l := by
  cases l with
  | nil => rfl
  | cons a l =>
    rw [List.dropWhile_cons, if_neg (by simp [h a (List.mem_cons_self a l)])]

theorem pyStrip_id (x : String)
    (h : ∀ c ∈ x.toList, isPyWsChar c = false) : pyStrip x = x := by
  unfold pyStrip
  rw [dropWhile_all_false x.toList h,
    dropWhile_all_false x.toList.reverse (fun c hc => h c (List.mem_reverse.mp hc)),
    List.reverse_reverse]
  rfl

theorem pyStrip_trailing_newline (x : String) (hne : x.toList ≠ [])
    (h : ∀ c ∈ x.toList, isPyWsChar c = false) : pyStrip (x ++ "\n") = x := by
  unfold pyStrip
  have htl : (x ++ "\n").toList = x.toList ++ ['\n'] := rfl
  rw [htl]
  rcases hl : x.toList with _ | ⟨a, as⟩
  · exact absurd hl hne
  · have hdrop1 : ((a :: as) ++ ['\n']).dropWhile isPyWsChar = (a :: as) ++ ['\n'] := by
      rw [List.cons_append, List.dropWhile_cons,
        if_neg (by simp [h a (by rw [hl]; exact List.mem_cons_self a as)])]
    rw [hdrop1]
    have hrev : ((a :: as) ++ ['\n']).reverse = '\n' :: (a :: as).reverse := by
      simp
    rw [hrev, List.dropWhile_cons, if_pos (by decide)]
    rw [dropWhile_all_false (a :: as).reverse
      (fun c hc => h c (by rw [hl]; exact List.mem_reverse.mp hc))]
    rw [List.reverse_reverse, ← hl]
    rfl

theorem wordChar_not_ws (c : Char) (h : isWordChar c = true) :
    isPyWsChar c = false := by
  by_contra hcon
  have hws : isPyWsChar c = true := by simpa using hcon
  simp only [isPyWsChar, Bool.or_eq_true, decide_eq_true_eq] at hws
  rcases hws with ((((h1 | h1) | h1) | h1) | h1) | h1 <;> subst h1 <;>
    exact absurd h (by decide)

theorem digit_not_ws (c : Char) (h : c.isDigit = true) :
    isPyWsChar c = false := by
  by_contra hcon
  have hws : isPyWsChar c = true := by simpa using hcon
  simp only [isPyWsChar, Bool.or_eq_true, decide_eq_true_eq] at hws
  rcases hws with ((((h1 | h1) | h1) | h1) | h1) | h1 <;> subst h1 <;>
    exact absurd h (by decide)

theorem digit_isWordChar (c : Char) (h : c.isDigit = true) :
    isWordChar c = true := by
  simp [isWordChar, Char.isAlphanum, h]

theorem takeWhile_all_then_stop {p : Char → Bool} (l1 : List Char) (c : Char)
    (l2 : List Char) (h1 : ∀ x ∈ l1, p x = true) (h2 : p c = false) :
    (l1 ++ c :: l2).takeWhile p = l1 := by
  rw [List.takeWhile_append]
  rw [List.takeWhile_eq_self_iff.mpr h1]
  simp [List.takeWhile_cons, h2]

theorem parseBracket_render (d1 d2 : List Char)
    (h1ne : d1 ≠ []) (h1d : ∀ c ∈ d1, c.isDigit = true)
    (h2ne : d2 ≠ []) (h2d : ∀ c ∈ d2, c.isDigit = true) :
    parseBracket ('[' :: (d1 ++ '-' :: (d2 ++ [']']))) = some (d1, d2) := by
  have ht1 : (d1 ++ '-' :: (d2 ++ [']'])).takeWhile Char.isDigit = d1 :=
    takeWhile_all_then_stop d1 '-' (d2 ++ [']']) h1d (by decide)
  have hd1 : (d1 ++ '-' :: (d2 ++ [']'])).drop d1.length = '-' :: (d2 ++ [']']) :=
    List.drop_left d1 ('-' :: (d2 ++ [']']))
  have ht2 : (d2 ++ [']']).takeWhile Char.isDigit = d2 :=
    takeWhile_all_then_stop d2 ']' [] h2d (by decide)
  have hd2 : (d2 ++ [']']).drop d2.length = [']'] := List.drop_left d2 [']']
  simp [parseBracket, ht1, hd1, ht2, hd2, List.isEmpty_iff, h1ne, h2ne]

theorem tryWordPrefix_exact (w rest : List Char) (g1 g2 : List Char)
    (hw : w ≠ []) (hbr : parseBracket rest = some (g1, g2)) :
    tryWordPrefix (w ++ rest) w.length = some (w, g1, g2) := by
  rcases w with _ | ⟨a, as⟩
  · exact absurd rfl hw
  · have hdrop : ((a :: as) ++ rest).drop (as.length + 1) = rest :=
      List.drop_left (a :: as) rest
    have htake : ((a :: as) ++ rest).take (as.length + 1) = a :: as :=
      List.take_left (a :: as) rest
    show tryWordPrefix ((a :: as) ++ rest) (as.length + 1) = some (a :: as, g1, g2)
    rw [tryWordPrefix, hdrop, hbr, htake]

theorem domain_pattern_match_render (acc : String) (s e : Nat)
    (hne : acc.toList ≠ []) (hw : ∀ c ∈ acc.toList, isWordChar c = true) :
    domain_pattern_match (renderDomainKey acc s e) = some (acc, s, e) := by
  have hlist :
      (renderDomainKey acc s e).toList
        = acc.toList ++ '[' :: ((pyStr s).toList ++ '-' :: ((pyStr e).toList ++ [']'])) := by
    show acc.toList ++ "[".toList ++ (pyStr s).toList ++ "-".toList
        ++ (pyStr e).toList ++ "]".toList = _
    simp
  simp only [domain_pattern_match]
  rw [hlist]
  rw [takeWhile_all_then_stop acc.toList '['
    ((pyStr s).toList ++ '-' :: ((pyStr e).toList ++ [']'])) hw (by decide)]
  rw [tryWordPrefix_exact acc.toList
    ('[' :: ((pyStr s).toList ++ '-' :: ((pyStr e).toList ++ [']'])))
    (pyStr s).toList (pyStr e).toList hne
    (parseBracket_render (pyStr s).toList (pyStr e).toList
      (pyStr_toList_ne_nil s) (pyStr_all_digits s)
      (pyStr_toList_ne_nil e) (pyStr_all_digits e))]
  rw [Option.map_some', parseVal_pyStr, parseVal_pyStr]
  rfl

theorem renderDomainKey_no_ws (acc : String) (s e : Nat)
    (hw : ∀ c ∈ acc.toList, isWordChar c = true) :
    ∀ c ∈ (renderDomainKey acc s e).toList, isPyWsChar c = false := by
  intro c hc
  have hc' : c ∈ acc.toList ++ '[' :: ((pyStr s).toList
      ++ '-' :: ((pyStr e).toList ++ [']'])) := by
    have :
        (renderDomainKey acc s e).toList
          = acc.toList ++ '[' :: ((pyStr s).toList
            ++ '-' :: ((pyStr e).toList ++ [']'])) := by
      show acc.toList ++ "[".toList ++ (pyStr s).toList ++ "-".toList
          ++ (pyStr e).toList ++ "]".toList = _
      simp
    rwa [this] at hc
  simp only [List.mem_append, List.mem_cons, List.mem_singleton] at hc'
  rcases hc' with hca | hcb | hcs | hcd | hce | hcr | hcn
  · exact wordChar_not_ws c (hw c hca)
  · subst hcb; decide
  · exact digit_not_ws c (pyStr_all_digits s c hcs)
  · subst hcd; decide
  · exact digit_not_ws c (pyStr_all_digits e c hce)
  · subst hcr; decide
  · exact absurd hcn (List.not_mem_nil c)

theorem renderDomainKey_toList_ne_nil (acc : String) (s e : Nat)
    (hne : acc.toList ≠ []) : (renderDomainKey acc s e).toList ≠ [] := by
  unfold renderDomainKey
  intro hcon
  have : acc.toList ++ ("[" ++ pyStr s ++ "-" ++ pyStr e ++ "]").toList = [] := by
    simpa using hcon
  rcases List.append_eq_nil.mp this with ⟨h1, _⟩
  exact hne h1

/-- C3: rendering a DomainKey as the annotation stage writes it
(`f"{accession}[{start}-{end}]"`, one per line in `domain_ranges.txt`) and
parsing the (stripped) line with the trimmer's `domain_pattern` recovers
exactly the original accession, start and end, for every word-character
accession and positive coordinates. -/
theorem c3_domain_key_roundtrip (acc : String) (start stop : Nat)
    (hne : acc.toList ≠ []) (hw : ∀ c ∈ acc.toList, isWordChar c = true)
    (hs : 0 < start) (he : 0 < stop) :
    domain_pattern_match (renderDomainKey acc start stop) = some (acc, start, stop)
    ∧ domain_pattern_match (pyStrip (renderDomainKey acc start stop ++ "\n"))
        = some (acc, start, stop) := by
  refine ⟨domain_pattern_match_render acc start stop hne hw, ?_⟩
  rw [pyStrip_trailing_newline _ (renderDomainKey_toList_ne_nil acc start stop hne)
    (renderDomainKey_no_ws acc start stop hw)]
  exact domain_pattern_match_render acc start stop hne hw

/-- C3 witness: `"P12345[10-50]"` parses back to `P12345`, 10, 50. -/
theorem c3_domain_key_roundtrip_witness :
    domain_pattern_match (renderDomainKey "P12345" 10 50) = some ("P12345", 10, 50)
    ∧ domain_pattern_match (pyStrip (renderDomainKey "P12345" 10 50 ++ "\n"))
        = some ("P12345", 10, 50) :=
  c3_domain_key_roundtrip "P12345" 10 50 (by decide) (by decide)
    (by decide) (by decide)

/-! ## Lemmas about the retry loop -/

theorem foldl_retryStep_done {α : Type} (m : Nat) (op : Nat → Except Unit α)
    (r : RetryResult α) (l : List Nat) (sleeps : List Nat) :
    l.foldl (retryStep m op) (some r, sleeps) = (some r, sleeps) := by
  induction l with
  | nil => rfl
  | cons i l ih => rw [List.foldl_cons]; exact ih

theorem foldl_retryStep_allfail {α : Type} (m : Nat) (op : Nat → Except Unit α) :
    ∀ (l : List Nat) (sleeps : List Nat),
      (∀ i ∈ l, op i = .error ()) → (∀ i ∈ l, i ≠ m - 1) →
      l.foldl (retryStep m op) (none, sleeps)
        = (none, sleeps ++ l.map (fun i => 2 ^ i)) := by
  intro l
  induction l with
  | nil => intro sleeps _ _; simp
  | cons i l ih =>
    intro sleeps hfail hne
    rw [List.foldl_cons]
    have hstep : retryStep m op (none, sleeps) i = (none, sleeps ++ [2 ^ i]) := by
      simp [retryStep, hfail i (List.mem_cons_self i l), hne i (List.mem_cons_self i l)]
    rw [hstep, ih (sleeps ++ [2 ^ i])
      (fun j hj => hfail j (List.mem_cons_of_mem i hj))
      (fun j hj => hne j (List.mem_cons_of_mem i hj))]
    simp

/-- C5: the retry loop of `_get_interpro_data` / `_get_structure_info`
sleeps exactly `2^0 = 1` then `2^1 = 2` time units between attempts when the
operation fails twice and succeeds on the third attempt, returning the
successful result; and when all `max_retries` attempts fail with transport
errors, the loop surfaces a typed `APIError` instead of masking the
failure. -/
theorem c5_retry_backoff {α : Type} (m : Nat) (op : Nat → Except Unit α) :
    (∀ v : α, 3 ≤ m → op 0 = .error () → op 1 = .error () → op 2 = .ok v →
      retryCall m op = (.ok v, [1, 2]))
    ∧ (0 < m → (∀ i, i < m → op i = .error ()) →
      (retryCall m op).1 = .apiError) := by
  constructor
  · intro v h3 h0 h1 h2
    obtain ⟨k, hk⟩ : ∃ k, m = 3 + k := ⟨m - 3, by omega⟩
    subst hk
    unfold retryCall
    rw [List.range_add]
    rw [List.foldl_append]
    have s0 : retryStep (3 + k) op (none, []) 0 = (none, [1]) := by
      simp [retryStep, h0] <;> omega
    have s1 : retryStep (3 + k) op (none, [1]) 1 = (none, [1, 2]) := by
      simp [retryStep, h1] <;> omega
    have s2 : retryStep (3 + k) op (none, [1, 2]) 2 = (some (.ok v), [1, 2]) := by
      simp [retryStep, h2]
    rw [show List.range 3 = [0, 1, 2] from rfl]
    rw [show List.foldl (retryStep (3 + k) op) (none, []) [0, 1, 2]
        = retryStep (3 + k) op (retryStep (3 + k) op
            (retryStep (3 + k) op (none, []) 0) 1) 2 from rfl]
    rw [s0, s1, s2, foldl_retryStep_done]
    rfl
  · intro hm hall
    unfold retryCall
    have hr : List.range m = List.range (m - 1) ++ [m - 1] := by
      conv_lhs => rw [show m = (m - 1) + 1 by omega]
      exact List.range_succ (m - 1)
    rw [hr, List.foldl_append,
      foldl_retryStep_allfail m op (List.range (m - 1)) []
        (fun i hi => hall i (by have := List.mem_range.mp hi; omega))
        (fun i hi => by have := List.mem_range.mp hi; omega)]
    have hlast : retryStep m op (none, [] ++ (List.range (m - 1)).map (fun i => 2 ^ i))
        (m - 1)
        = (some .apiError, [] ++ (List.range (m - 1)).map (fun i => 2 ^ i)) := by
      simp [retryStep, hall (m - 1) (by omega)]
    rw [show List.foldl (retryStep m op)
          ((none : Option (RetryResult α)), [] ++ (List.range (m - 1)).map (fun i => 2 ^ i))
          [m - 1]
        = retryStep m op (none, [] ++ (List.range (m - 1)).map (fun i => 2 ^ i)) (m - 1)
        from rfl]
    rw [hlast]
    rfl

/-- C5 witness: with `max_retries = 3`, failing twice then succeeding
returns the result after sleeps `[1, 2]`; failing thrice yields the API
error. -/
theorem c5_retry_backoff_witness :
    retryCall 3 (fun i => if i = 2 then Except.ok 42 else Except.error ()) = (.ok 42, [1, 2])
    ∧ (retryCall 3 (fun _ => (Except.error () : Except Unit Nat))).1 = .apiError :=
  ⟨(c5_retry_backoff 3 (fun i => if i = 2 then Except.ok 42 else Except.error ())).1
      42 (by omega) rfl rfl rfl,
   (c5_retry_backoff 3 (fun _ => (Except.error () : Except Unit Nat))).2
      (by omega) (fun i _ => rfl)⟩

/-! ## FastaProcessor and duplicate-key behaviour -/

/-- C6 (code evaluation for the failing input): an accession whose retrieved
sequence has length 5 and a domain `(1, 10)` whose end exceeds it.  Python
string slicing never raises `IndexError`, so the `except IndexError` skip
branch of `_extract_domain_sequences` is dead code: the domain is NOT
skipped — it produces an entry with the silently truncated sequence. -/
theorem c6_out_of_range_domain_not_skipped :
    extract_domain_sequences ">sp|P1|x\nABCDE" [("P1", [("E1", 1, 10)])]
      = .ok [("P1[1-10]", ⟨"ABCDE", "E1", "P1", 1, 10⟩)] := rfl

/-- C7 counterexample: feeding the same DomainKey line twice to
`_parse_domain_ranges` is accepted without any error — the duplicate
`(accession, start, end)` pair is simply recorded a second time, refuting
the claim that duplicates are rejected as a data-integrity violation. -/
theorem c7_counterexample :
    parse_domain_ranges ["P1[1-2]", "P1[1-2]"] = .ok [("P1", [(1, 2), (1, 2)])] := rfl

/-- C7 (amended): duplicate `(accession, start, end)` pairs are silently
accepted, never rejected: the trimmer's range parser records the duplicate
pair twice for its accession, and the sequence extractor writes both domains
under the same DomainKey so the later one silently overwrites the earlier
(here the key `P1[1-3]` ends up carrying entry `E2`). -/
theorem c7_duplicates_silently_accepted (acc : String) (s e : Nat)
    (hne : acc.toList ≠ []) (hw : ∀ c ∈ acc.toList, isWordChar c = true) :
    parse_domain_ranges [renderDomainKey acc s e, renderDomainKey acc s e]
      = .ok [(acc, [(s, e), (s, e)])]
    ∧ extract_domain_sequences ">sp|P1|x\nABCDEFGH" [("P1", [("E1", 1, 3), ("E2", 1, 3)])]
      = .ok [("P1[1-3]", ⟨"ABC", "E2", "P1", 1, 3⟩)] := by
  constructor
  · have hstrip : pyStrip (renderDomainKey acc s e) = renderDomainKey acc s e :=
      pyStrip_id _ (renderDomainKey_no_ws acc s e hw)
    have hmatch := domain_pattern_match_render acc s e hne hw
    simp [parse_domain_ranges, hstrip, hmatch, dictAppendRange]
  · rfl

/-- C7 witness: duplicates of `P1[1-2]` are both recorded. -/
theorem c7_duplicates_silently_accepted_witness :
    parse_domain_ranges [renderDomainKey "P1" 1 2, renderDomainKey "P1" 1 2]
      = .ok [("P1", [(1, 2), (1, 2)])]
    ∧ extract_domain_sequences ">sp|P1|x\nABCDEFGH" [("P1", [("E1", 1, 3), ("E2", 1, 3)])]
      = .ok [("P1[1-3]", ⟨"ABC", "E2", "P1", 1, 3⟩)] :=
  c7_duplicates_silently_accepted "P1" 1 2 (by decide) (by decide)

/-! ## Lemmas about the structure-download stage -/

theorem dictInsert_fresh {V : Type} (m : List (String × V)) (k : String) (v : V)
    (h : ∀ q ∈ m, q.1 ≠ k) : dictInsert m k v = m ++ [(k, v)] := by
  have hany : m.any (fun p => p.1 == k) = false :=
    List.any_eq_false.mpr (fun p hp => by simp [h p hp])
  simp [dictInsert, hany]

theorem foldl_afCollect (l : List (String × Option String)) :
    ∀ acc : List (String × String),
      (∀ p ∈ l, ∀ q ∈ acc, q.1 ≠ p.1) → (l.map Prod.fst).Nodup →
      l.foldl afCollect acc
        = acc ++ l.filterMap (fun p => p.2.map (fun v => (p.1, v))) := by
  induction l with
  | nil => intro acc _ _; simp
  | cons p l ih =>
    intro acc hfresh hnd
    rcases p with ⟨a, o⟩
    have hndtail : (l.map Prod.fst).Nodup := by
      simp only [List.map_cons, List.nodup_cons] at hnd
      exact hnd.2
    have hnotin : a ∉ l.map Prod.fst := by
      simp only [List.map_cons, List.nodup_cons] at hnd
      exact hnd.1
    cases o with
    | none =>
      rw [List.foldl_cons]
      have : afCollect acc (a, none) = acc := rfl
      rw [this, ih acc (fun p hp q hq => hfresh p (List.mem_cons_of_mem _ hp) q hq)
        hndtail]
      simp [List.filterMap_cons]
    | some v =>
      rw [List.foldl_cons]
      have hstep : afCollect acc (a, some v) = acc ++ [(a, v)] :=
        dictInsert_fresh acc a v
          (fun q hq => hfresh (a, some v) (List.mem_cons_self _ _) q hq)
      rw [hstep, ih (acc ++ [(a, v)])
        (fun p hp q hq => by
          rcases List.mem_append.mp hq with hq' | hq'
          · exact hfresh p (List.mem_cons_of_mem _ hp) q hq'
          · rw [List.mem_singleton] at hq'
            subst hq'
            intro hcon
            have hcon' : a = p.1 := hcon
            exact hnotin (by
              rw [hcon']
              exact List.mem_map_of_mem Prod.fst hp))
        hndtail]
      simp [List.filterMap_cons]

/-- C8: the structure-download stage isolates per-accession failures: with a
non-empty accession list where each accession independently succeeded with a
path or failed (worker outcome `none` after retry exhaustion), the stage
returns exactly the mapping of the successful accessions, and raises a
stage-wide (ProcessingError-wrapped) failure if and only if zero accessions
succeeded. -/
theorem c8_structure_stage_partial_failure (outcomes : List (String × Option String))
    (hne : outcomes ≠ []) (hnd : (outcomes.map Prod.fst).Nodup) :
    ((∃ p ∈ outcomes, p.2 ≠ none) →
      alphafold_process outcomes
        = .ok (outcomes.filterMap (fun p => p.2.map (fun v => (p.1, v)))))
    ∧ ((∀ p ∈ outcomes, p.2 = none) →
      alphafold_process outcomes
        = .error (.processing
            "AlphaFold processing failed: No structures were downloaded successfully")) := by
  have hres : outcomes.foldl afCollect []
      = outcomes.filterMap (fun p => p.2.map (fun v => (p.1, v))) := by
    have := foldl_afCollect outcomes [] (by simp) hnd
    simpa using this
  have hempty_iff :
      outcomes.filterMap (fun p => p.2.map (fun v => (p.1, v))) = []
        ↔ ∀ p ∈ outcomes, p.2 = none := by
    rw [List.filterMap_eq_nil_iff]
    constructor
    · intro h p hp
      exact Option.map_eq_none'.mp (h p hp)
    · intro h p hp
      rw [h p hp]
      rfl
  have hnonempty : outcomes.isEmpty = false := by
    simp [List.isEmpty_iff, hne]
  constructor
  · intro hex
    have hresne :
        outcomes.filterMap (fun p => p.2.map (fun v => (p.1, v))) ≠ [] := by
      intro hcon
      obtain ⟨p, hp, hpne⟩ := hex
      exact hpne (hempty_iff.mp hcon p hp)
    simp only [alphafold_process, hnonempty, Bool.false_eq_true, if_false, hres]
    rw [if_neg (by simpa [List.isEmpty_iff] using hresne)]
  · intro hall
    simp only [alphafold_process, hnonempty, Bool.false_eq_true, if_false, hres]
    rw [if_pos (by simpa [List.isEmpty_iff] using hempty_iff.mpr hall)]

/-- C8 witness: 3 of 5 accessions fail — the stage returns exactly the 2
successes; and with all 5 failing it raises the wrapped error. -/
theorem c8_structure_stage_partial_failure_witness :
    alphafold_process
        [("A1", some "p1"), ("A2", none), ("A3", none), ("A4", some "p4"), ("A5", none)]
      = .ok [("A1", "p1"), ("A4", "p4")]
    ∧ alphafold_process
        [("A1", none), ("A2", none), ("A3", none), ("A4", none), ("A5", none)]
      = .error (.processing
          "AlphaFold processing failed: No structures were downloaded successfully") :=
  ⟨(c8_structure_stage_partial_failure
      [("A1", some "p1"), ("A2", none), ("A3", none), ("A4", some "p4"), ("A5", none)]
      (by decide) (by decide)).1 ⟨("A1", some "p1"), by decide, by decide⟩,
   (c8_structure_stage_partial_failure
      [("A1", none), ("A2", none), ("A3", none), ("A4", none), ("A5", none)]
      (by decide) (by decide)).2 (by decide)⟩

/-! ## Lemmas about the orchestrator -/

theorem foldl_afCollect_all_none (l : List (String × Option String)) :
    ∀ acc, (∀ p ∈ l, p.2 = none) → l.foldl afCollect acc = acc := by
  induction l with
  | nil => intro acc _; rfl
  | cons p l ih =>
    intro acc h
    rw [List.foldl_cons]
    have hp : p.2 = none := h p (List.mem_cons_self p l)
    have : afCollect acc p = acc := by
      unfold afCollect
      rw [hp]
    rw [this]
    exact ih acc (fun q hq => h q (List.mem_cons_of_mem p hq))

theorem alphafold_process_all_none (outcomes : List (String × Option String))
    (h : ∀ p ∈ outcomes, p.2 = none) :
    alphafold_process outcomes = .error (.validation "No accessions provided")
    ∨ alphafold_process outcomes
        = .error (.processing
            "AlphaFold processing failed: No structures were downloaded successfully") := by
  by_cases hne : outcomes = []
  · subst hne
    left
    rfl
  · right
    have hfold := foldl_afCollect_all_none outcomes [] h
    simp only [alphafold_process, show outcomes.isEmpty = false by
      simpa [List.isEmpty_iff] using hne, Bool.false_eq_true, if_false, hfold]
    rfl

/-- C9: when structure download is requested and yields zero successful
downloads (the stage call raises) while trimming is also requested, the
orchestrator does not raise — the trim stage is short-circuited and the
accumulated results of the completed stages (domains, and fasta when it was
requested) are returned to the caller, with no `alphafold` and no `trimmed`
entry. -/
theorem c9_zero_downloads_short_circuits_trim (env : RunEnv)
    (outcomes : List (String × Option String)) (lines : List String)
    (dm : DomainsMap) (fm : List (String × DomainSeqRec))
    (h1 : env.inputFileContents = some lines)
    (h2 : env.interproEntries ≠ [])
    (h3 : env.stopRequested = false)
    (h4 : env.interproOutcome = .ok dm)
    (h5 : env.retrieveFasta = true → env.fastaOutcome = .ok fm)
    (h6 : env.downloadAlphafold = true)
    (h7 : env.trimPdb = true)
    (h8 : env.afOutcome = alphafold_process outcomes)
    (h9 : ∀ p ∈ outcomes, p.2 = none) :
    workflow_run env
      = .ok { domains := some dm,
              fasta := if env.retrieveFasta then some fm else none,
              alphafold := none, trimmed := none } := by
  have hentries : env.interproEntries.isEmpty = false := by
    simpa [List.isEmpty_iff] using h2
  rcases alphafold_process_all_none outcomes h9 with haf | haf <;>
    rw [← h8] at haf <;>
    by_cases hrf : env.retrieveFasta <;>
    first
      | (have h5' := h5 hrf
         simp [workflow_run, workflow_run_body, h1, hentries, h3, h4, h5', h6, h7,
           hrf, haf, PyErr.isProcessingFamily, Except.bind, bind])
      | (simp [workflow_run, workflow_run_body, h1, hentries, h3, h4, h6, h7,
           hrf, haf, PyErr.isProcessingFamily, Except.bind, bind])

/-- C9 witness: a concrete run environment where every prior stage succeeded,
download and trim are both requested, and all five structure downloads fail:
the run returns the accumulated domains instead of raising. -/
theorem c9_zero_downloads_short_circuits_trim_witness :
    workflow_run
        { inputFileContents := some ["P1"],
          interproEntries := ["IPR000001"],
          interproOutcome := .ok [("P1", [("IPR000001", (1, 10))])],
          fastaOutcome := .ok [],
          afOutcome := alphafold_process [("P1", none)],
          trimOutcome := .ok [],
          retrieveFasta := false,
          downloadAlphafold := true,
          trimPdb := true,
          stopRequested := false,
          alphafoldStructDirExists := false }
      = .ok { domains := some [("P1", [("IPR000001", (1, 10))])],
              fasta := none, alphafold := none, trimmed := none } := by
  have h := c9_zero_downloads_short_circuits_trim
    { inputFileContents := some ["P1"],
      interproEntries := ["IPR000001"],
      interproOutcome := .ok [("P1", [("IPR000001", (1, 10))])],
      fastaOutcome := .ok [],
      afOutcome := alphafold_process [("P1", none)],
      trimOutcome := .ok [],
      retrieveFasta := false,
      downloadAlphafold := true,
      trimPdb := true,
      stopRequested := false,
      alphafoldStructDirExists := false }
    [("P1", none)] ["P1"] [("P1", [("IPR000001", (1, 10))])] []
    rfl (by decide) rfl rfl (by intro hcon; exact absurd hcon (by decide)) rfl rfl rfl
    (by intro p hp; rcases List.mem_singleton.mp hp with h; rw [h])
  simpa using h

/-- C10: for every run environment whose input file is missing, the body of
`WorkflowManager.run` fails at `open(input_file)` — which executes before the
`input_file.exists()` validation — and the outer `except Exception` handler
wraps the failure into a `ProcessingError`; a `ValidationError` is never
raised for a missing input file. -/
theorem c10_missing_input_file_is_processing_error (env : RunEnv)
    (h : env.inputFileContents = none) :
    workflow_run env
      = .error (.processing "Workflow execution failed: No such file or directory") := by
  simp [workflow_run, workflow_run_body, h, PyErr.isProcessingFamily, PyErr.msg,
    Except.bind, bind]

/-- C10 witness: a concrete environment with no input file on disk yields the
wrapped ProcessingError (and hence not a ValidationError). -/
theorem c10_missing_input_file_is_processing_error_witness :
    workflow_run
        { inputFileContents := none,
          interproEntries := ["IPR000001"],
          interproOutcome := .ok [],
          fastaOutcome := .ok [],
          afOutcome := .ok [],
          trimOutcome := .ok [],
          retrieveFasta := false,
          downloadAlphafold := false,
          trimPdb := false,
          stopRequested := false,
          alphafoldStructDirExists := true }
      = .error (.processing "Workflow execution failed: No such file or directory") :=
  c10_missing_input_file_is_processing_error _ rfl

end ProtDom
